import Mathlib

/-!
Shallow embedding of the element classification and resolution engine of
`src/utils.py` (gtfs-to-osm).

JSON values loaded by `json.load` are modelled by `JVal`; Python floats are
modelled by rationals (the program performs no arithmetic on them — they are
only stored in points and compared for identity).  Python dicts are modelled
as association lists with first-key lookup (Python dicts have unique keys).
Mutation of the accumulator lists (`types`, `ids`, `points`, `names`,
`platforms`, `platform_nodes`) is modelled by explicit state passing, logging
calls by emitted `LogEvent` lists, and statements that can raise
(`elem["type"]`, `platform["nodes"]`, ...) by `Except`/fault flags.
-/

set_option autoImplicit false

namespace GtfsToOsm

/-- A JSON value as produced by `json.load`.  `jfloat` models a Python float
by a rational; `jint`/`jbool` are kept separate constructors even though
Python's `bool` is a subclass of `int` (the validators below account for
that). -/
inductive JVal where
  | jnull
  | jbool (b : Bool)
  | jint (n : Int)
  | jfloat (q : ℚ)
  | jstr (s : String)
  | jarr (elems : List JVal)
  | jobj (fields : List (String × JVal))
  deriving Repr

/-- Dict field lookup: first entry with the given key (Python dict keys are
unique, so first-match is exact). -/
def lookupField : List (String × JVal) → String → Option JVal
  | [], _ => none
  | (k, v) :: rest, key => if k = key then some v else lookupField rest key

/-- Python `str()` of a JSON value, used for `str(elem["id"])` and
`str(node)`.  Exact for ints, bools, `None` and strings.  For floats, lists
and dicts a surrogate spelling is used: the program only ever compares these
strings against keys of the form `str(int)` (decimal integer strings), and a
Python `str()` of a float/list/dict is never a decimal integer string, which
the surrogates preserve. -/
def pyStr : JVal → String
  | .jnull => "None"
  | .jbool true => "True"
  | .jbool false => "False"
  | .jint n => toString n
  | .jfloat q => "float:" ++ toString q
  | .jstr s => s
  | .jarr _ => "list:"
  | .jobj _ => "dict:"

/-- voluptuous `int` check: `isinstance(v, int)`; Python bools are ints. -/
def isPyInt : JVal → Bool
  | .jint _ => true
  | .jbool _ => true
  | _ => false

/-- voluptuous `float` check: `isinstance(v, float)` (a Python int is not a
float). -/
def isPyFloat : JVal → Bool
  | .jfloat _ => true
  | _ => false

/-- `Opt("name"): non_empty_string` inside the tags schema: the key is
optional, but when present must be a string of length at least 1. -/
def nameOk : Option JVal → Bool
  | none => true
  | some (.jstr s) => decide (1 ≤ s.length)
  | some _ => false

/-- `Schema({"public_transport": "platform"}, extra=ALLOW_EXTRA)` applied to
the tags dict.  The schema is constructed without `required=True`, so the
key is optional: the schema only fails when the key is present with a value
different from `"platform"`. -/
def ptOk (t : List (String × JVal)) : Bool :=
  match lookupField t "public_transport" with
  | none => true
  | some (.jstr "platform") => true
  | some _ => false

/-- `Schema({"highway": "bus_stop"}, extra=ALLOW_EXTRA)` applied to the tags
dict; like `ptOk`, the key is optional. -/
def hwOk (t : List (String × JVal)) : Bool :=
  match lookupField t "highway" with
  | none => true
  | some (.jstr "bus_stop") => true
  | some _ => false

/-- The `All(...)` validator on `tags` in `osm_node_stop_validator`: the
optional-`name` schema and the `Any` of the two tag-scheme schemas. -/
def tagsOk (t : List (String × JVal)) : Bool :=
  nameOk (lookupField t "name") && (ptOk t || hwOk t)

/-- `osm_node_stop_validator` (utils.py lines 37-60): a `Schema` with
`required=True` and `extra=ALLOW_EXTRA`; `type` must be the literal
`"node"`, `id` an int, `lat`/`lon` floats, and `tags` a dict passing
`tagsOk`.  Extra top-level keys are allowed. -/
def osm_node_stop_validator : JVal → Bool
  | .jobj o =>
    (match lookupField o "type" with
     | some (.jstr "node") => true
     | _ => false) &&
    isPyInt ((lookupField o "id").getD .jnull) &&
    isPyFloat ((lookupField o "lat").getD .jnull) &&
    isPyFloat ((lookupField o "lon").getD .jnull) &&
    (match lookupField o "tags" with
     | some (.jobj t) => tagsOk t
     | _ => false)
  | _ => false

/-- `osm_way_stop_validator` (utils.py lines 62-71): `required=True`,
`extra=ALLOW_EXTRA`; `type` must be `"way"`, `id` an int, `nodes` a list of
ints of length at least 2, `tags` a dict whose (required, since `required`
propagates into the raw nested dict) `public_transport` key equals
`"platform"`, other tag keys allowed. -/
def osm_way_stop_validator : JVal → Bool
  | .jobj o =>
    (match lookupField o "type" with
     | some (.jstr "way") => true
     | _ => false) &&
    isPyInt ((lookupField o "id").getD .jnull) &&
    (match lookupField o "nodes" with
     | some (.jarr ns) => ns.all isPyInt && decide (2 ≤ ns.length)
     | _ => false) &&
    (match lookupField o "tags" with
     | some (.jobj t) =>
       (match lookupField t "public_transport" with
        | some (.jstr "platform") => true
        | _ => false)
     | _ => false)
  | _ => false

/-- `osm_node_part_of_way_validator` (utils.py lines 73-81): `required=True`
and no `extra` setting, so the voluptuous default `PREVENT_EXTRA` applies:
`type`/`id`/`lat`/`lon` must all be present and correctly typed and no
other key may appear. -/
def osm_node_part_of_way_validator : JVal → Bool
  | .jobj o =>
    (match lookupField o "type" with
     | some (.jstr "node") => true
     | _ => false) &&
    isPyInt ((lookupField o "id").getD .jnull) &&
    isPyFloat ((lookupField o "lat").getD .jnull) &&
    isPyFloat ((lookupField o "lon").getD .jnull) &&
    o.all (fun kv => kv.1 = "type" || kv.1 = "id" || kv.1 = "lat" || kv.1 = "lon")
  | _ => false

/-- The `ElemType` enum of utils.py. -/
inductive ElemType where
  | node
  | way
  | way_node
  deriving Repr, DecidableEq

/-- One diagnostic log line.  `validationFailed` is the `log.error` inside
`_is_elem_type`, `platformNodeNotFound` and `platformUnresolved` are the two
`log.error` calls of the resolution loop, and `resolverFault` is the
`log.exception` of the `except` clause wrapping that loop. -/
inductive LogEvent where
  | validationFailed (elemType : ElemType) (elem : JVal)
  | platformNodeNotFound (node : JVal)
  | platformUnresolved (platform : JVal)
  | resolverFault
  deriving Repr

/-- The mutable accumulators of `osm_2_gdf`: the four parallel column lists
(`types`, `ids`, `points`, `names` — a point is the `(lon, lat)` pair passed
to `Point`), the pending `platforms` list and the `platform_nodes` dict.
The value stored for a platform node is the dict `{"point": Point(...)}`;
since that dict always has exactly the one key, it is modelled by the point
itself. -/
structure DState where
  types : List JVal
  ids : List JVal
  points : List (ℚ × ℚ)
  names : List JVal
  platforms : List JVal
  platform_nodes : List (String × (ℚ × ℚ))
  deriving Repr

/-- The six accumulators all start empty. -/
def initD : DState := ⟨[], [], [], [], [], []⟩

/-- Python dict assignment `platform_nodes[k] = v`: overwrite the entry in
place when the key exists, append it otherwise. -/
def insertNode : List (String × (ℚ × ℚ)) → String → (ℚ × ℚ) → List (String × (ℚ × ℚ))
  | [], k, v => [(k, v)]
  | (k', v') :: rest, k, v =>
    if k' = k then (k, v) :: rest else (k', v') :: insertNode rest k v

/-- Python dict lookup `platform_nodes[k]` (as an `Option`; the caller
decides whether `none` is a caught `KeyError`). -/
def lookupNode : List (String × (ℚ × ℚ)) → String → Option (ℚ × ℚ)
  | [], _ => none
  | (k', v') :: rest, k => if k' = k then some v' else lookupNode rest k

/-- The expression `elem.get("tags", {}).get("name", "n/a")`.  A missing
`tags` key yields the default `"n/a"`; a present non-dict `tags` value has
no `.get` method, so the second call raises (`error`). -/
def getName (o : List (String × JVal)) : Except Unit JVal :=
  match lookupField o "tags" with
  | none => .ok (.jstr "n/a")
  | some (.jobj t) => .ok ((lookupField t "name").getD (.jstr "n/a"))
  | some _ => .error ()

/-- One iteration of the classification loop of `osm_2_gdf` (utils.py lines
117-158) on a single element.  `error` models an exception escaping the
loop body (`elem["type"]` on a missing key or a non-dict element); `ok`
carries the updated accumulators and the log lines emitted for this
element.  The field extractions after a successful validation mirror the
source's direct subscripts; their fallback `error` arms are unreachable
because the validator guarantees the fields (proved below). -/
def stepD (s : DState) (e : JVal) : Except Unit (DState × List LogEvent) :=
  match e with
  | .jobj o =>
    match lookupField o "type" with
    | none => .error ()
    | some (.jstr sv) =>
      if sv = "node" then
        if osm_node_stop_validator (.jobj o) then
          match lookupField o "id", lookupField o "lat", lookupField o "lon" with
          | some iv, some (.jfloat la), some (.jfloat lo) =>
            match getName o with
            | .ok nm =>
              .ok ({ s with
                       types := s.types ++ [.jstr "node"],
                       ids := s.ids ++ [.jstr (pyStr iv)],
                       points := s.points ++ [(lo, la)],
                       names := s.names ++ [nm] }, [])
            | .error u => .error u
          | _, _, _ => .error ()
        else if osm_node_part_of_way_validator (.jobj o) then
          match lookupField o "id", lookupField o "lat", lookupField o "lon" with
          | some iv, some (.jfloat la), some (.jfloat lo) =>
            .ok ({ s with
                     platform_nodes := insertNode s.platform_nodes (pyStr iv) (lo, la) }, [])
          | _, _, _ => .error ()
        else
          .ok (s, [.validationFailed .way_node (.jobj o)])
      else if sv = "way" then
        if osm_way_stop_validator (.jobj o) then
          match lookupField o "id", lookupField o "nodes" with
          | some iv, some nodesv =>
            match getName o with
            | .ok nm =>
              .ok ({ s with
                       platforms := s.platforms ++
                         [.jobj [("type", .jstr "way"), ("id", .jstr (pyStr iv)),
                                 ("name", nm), ("nodes", nodesv)]] }, [])
            | .error u => .error u
          | _, _ => .error ()
        else
          .ok (s, [.validationFailed .way (.jobj o)])
      else .ok (s, [])
    | some _ => .ok (s, [])
  | _ => .error ()

/-- The classification loop over the whole `elements` sequence, threading
the accumulators and concatenating the emitted log lines.  An exception in
one iteration aborts the loop (and the run). -/
def classifyGo (s : DState) : List JVal → Except Unit (DState × List LogEvent)
  | [] => .ok (s, [])
  | e :: rest =>
    match stepD s e with
    | .error u => .error u
    | .ok (s', l) =>
      match classifyGo s' rest with
      | .error u => .error u
      | .ok (s'', l') => .ok (s'', l ++ l')

/-- Python iteration `for node in v`: lists iterate their elements, strings
their characters, dicts their keys; other values raise `TypeError`
(`none`). -/
def iterElems : JVal → Option (List JVal)
  | .jarr xs => some xs
  | .jstr s => some (s.toList.map (fun c => .jstr (String.singleton c)))
  | .jobj o => some (o.map (fun kv => .jstr kv.1))
  | _ => none

/-- The inner `for node in platform["nodes"]` walk (utils.py lines 168-181)
over the remaining node references.  Returns the updated accumulators, the
emitted log lines, and `true` when an exception escaped the walk (an
uncaught `KeyError` from `platform["type"]`, `platform["id"]` or
`platform["name"]` in the record-emitting branch — only the
`platform_nodes[str(node)]` lookup is inside the inner `try`).  Note the
source appends to `types`, then `ids`, then `points`, then `names`, so a
fault mid-branch leaves the earlier appends in place. -/
def walkNodes (s : DState) (p : JVal) (o : List (String × JVal)) :
    List JVal → DState × List LogEvent × Bool
  | [] => (s, [.platformUnresolved p], false)
  | n :: rest =>
    match lookupNode s.platform_nodes (pyStr n) with
    | none =>
      let r := walkNodes s p o rest
      (r.1, .platformNodeNotFound n :: r.2.1, r.2.2)
    | some pt =>
      match lookupField o "type" with
      | none => (s, [], true)
      | some tv =>
        let s1 := { s with types := s.types ++ [tv] }
        match lookupField o "id" with
        | none => (s1, [], true)
        | some iv =>
          let s2 := { s1 with ids := s1.ids ++ [iv], points := s1.points ++ [pt] }
          match lookupField o "name" with
          | none => (s2, [], true)
          | some nv => ({ s2 with names := s2.names ++ [nv] }, [], false)

/-- Resolution of a single pending platform: fetch `platform["nodes"]`
(faulting on a missing key or a non-dict platform), iterate it (faulting on
a non-iterable value) and walk the references. -/
def resolvePlatform (s : DState) (p : JVal) : DState × List LogEvent × Bool :=
  match p with
  | .jobj o =>
    match lookupField o "nodes" with
    | none => (s, [], true)
    | some v =>
      match iterElems v with
      | none => (s, [], true)
      | some ns => walkNodes s p o ns
  | _ => (s, [], true)

/-- The `for platform in platforms` loop (utils.py lines 166-181).  A fault
in one platform's resolution escapes the loop: the remaining platforms are
not visited and the fault flag is returned to the surrounding handler. -/
def resolveLoop (s : DState) : List JVal → DState × List LogEvent × Bool
  | [] => (s, [], false)
  | p :: rest =>
    match resolvePlatform s p with
    | (s', l, true) => (s', l, true)
    | (s', l, false) =>
      let r := resolveLoop s' rest
      (r.1, l ++ r.2.1, r.2.2)

/-- The resolution phase: the loop over `s.platforms` wrapped in the single
`try`/`except` of utils.py lines 165-183, which logs (`resolverFault`) and
falls through to the table construction, keeping every append made before
the fault. -/
def resolveAll (s : DState) : DState × List LogEvent :=
  match resolveLoop s s.platforms with
  | (s', l, true) => (s', l ++ [.resolverFault])
  | (s', l, false) => (s', l)

/-- The whole engine of `osm_2_gdf` on the already-parsed `elements`
sequence: classify every element, then resolve the pending platforms.  The
final `GeoDataFrame` is the four column lists `types`, `ids`, `names` and
the geometry column `points` of the returned state. -/
def osm_2_gdf (elems : List JVal) : Except Unit (DState × List LogEvent) :=
  match classifyGo initD elems with
  | .error u => .error u
  | .ok (s, l) =>
    let r := resolveAll s
    .ok (r.1, l ++ r.2)

/-- A bare way-member node element: exactly the four fields
`type`/`id`/`lat`/`lon` and nothing else. -/
def bareElem (i : Int) (la lo : ℚ) : JVal :=
  .jobj [("type", .jstr "node"), ("id", .jint i), ("lat", .jfloat la), ("lon", .jfloat lo)]

/-- Decides whether classifying `e` writes the key `k` into the
`platform_nodes` mapping: `e` must take the bare-member branch (node kind,
standalone validation failed, bare validation passed) and its id must
stringify to `k`. -/
def insertsKey (e : JVal) (k : String) : Bool :=
  match e with
  | .jobj o =>
    (match lookupField o "type" with
     | some (.jstr "node") => true
     | _ => false) &&
    !(osm_node_stop_validator (.jobj o)) &&
    osm_node_part_of_way_validator (.jobj o) &&
    (match lookupField o "id" with
     | some iv => decide (pyStr iv = k)
     | none => false)
  | _ => false

/-- The direct stop record (stop_type, stop_id, point, stop_name) that the
classifier emits for `e`, or `none` when `e` takes another branch.  Mirrors
the standalone-stop branch of `stepD`. -/
def directRecord (e : JVal) : Option (JVal × JVal × (ℚ × ℚ) × JVal) :=
  match e with
  | .jobj o =>
    match lookupField o "type" with
    | some (.jstr sv) =>
      if sv = "node" then
        if osm_node_stop_validator (.jobj o) then
          match lookupField o "id", lookupField o "lat", lookupField o "lon" with
          | some iv, some (.jfloat la), some (.jfloat lo) =>
            match getName o with
            | .ok nm => some (.jstr "node", .jstr (pyStr iv), (lo, la), nm)
            | .error _ => none
          | _, _, _ => none
        else none
      else none
    | _ => none
  | _ => none

/-- The pending-platform dict that the classifier defers for `e`, or `none`
when `e` takes another branch.  Mirrors the platform-way branch of
`stepD`. -/
def wayRecord (e : JVal) : Option JVal :=
  match e with
  | .jobj o =>
    match lookupField o "type" with
    | some (.jstr sv) =>
      if sv = "way" then
        if osm_way_stop_validator (.jobj o) then
          match lookupField o "id", lookupField o "nodes" with
          | some iv, some nodesv =>
            match getName o with
            | .ok nm =>
              some (.jobj [("type", .jstr "way"), ("id", .jstr (pyStr iv)),
                           ("name", nm), ("nodes", nodesv)])
            | .error _ => none
          | _, _ => none
        else none
      else none
    | _ => none
  | _ => none

/-- Direct-record contribution of one element to the `types` column. -/
def dRecT (e : JVal) : List JVal :=
  match directRecord e with
  | some r => [r.1]
  | none => []

/-- Direct-record contribution of one element to the `ids` column. -/
def dRecI (e : JVal) : List JVal :=
  match directRecord e with
  | some r => [r.2.1]
  | none => []

/-- Direct-record contribution of one element to the geometry column. -/
def dRecP (e : JVal) : List (ℚ × ℚ) :=
  match directRecord e with
  | some r => [r.2.2.1]
  | none => []

/-- Direct-record contribution of one element to the `names` column. -/
def dRecN (e : JVal) : List JVal :=
  match directRecord e with
  | some r => [r.2.2.2]
  | none => []

/-- Pending-platform contribution of one element. -/
def wRecL (e : JVal) : List JVal :=
  match wayRecord e with
  | some p => [p]
  | none => []

/-- The state with the four column lists cleared (side tables kept): running
the resolver from it isolates the rows the resolver itself appends. -/
def rowsCleared (s : DState) : DState :=
  { s with types := [], ids := [], points := [], names := [] }

/-- Log-free twin of `stepD`, used to state that the diagnostic events do
not influence the produced table. -/
def stepData (s : DState) (e : JVal) : Except Unit DState :=
  match e with
  | .jobj o =>
    match lookupField o "type" with
    | none => .error ()
    | some (.jstr sv) =>
      if sv = "node" then
        if osm_node_stop_validator (.jobj o) then
          match lookupField o "id", lookupField o "lat", lookupField o "lon" with
          | some iv, some (.jfloat la), some (.jfloat lo) =>
            match getName o with
            | .ok nm =>
              .ok { s with
                      types := s.types ++ [.jstr "node"],
                      ids := s.ids ++ [.jstr (pyStr iv)],
                      points := s.points ++ [(lo, la)],
                      names := s.names ++ [nm] }
            | .error u => .error u
          | _, _, _ => .error ()
        else if osm_node_part_of_way_validator (.jobj o) then
          match lookupField o "id", lookupField o "lat", lookupField o "lon" with
          | some iv, some (.jfloat la), some (.jfloat lo) =>
            .ok { s with
                    platform_nodes := insertNode s.platform_nodes (pyStr iv) (lo, la) }
          | _, _, _ => .error ()
        else
          .ok s
      else if sv = "way" then
        if osm_way_stop_validator (.jobj o) then
          match lookupField o "id", lookupField o "nodes" with
          | some iv, some nodesv =>
            match getName o with
            | .ok nm =>
              .ok { s with
                      platforms := s.platforms ++
                        [.jobj [("type", .jstr "way"), ("id", .jstr (pyStr iv)),
                                ("name", nm), ("nodes", nodesv)]] }
            | .error u => .error u
          | _, _ => .error ()
        else
          .ok s
      else .ok s
    | some _ => .ok s
  | _ => .error ()

/-- Log-free twin of `classifyGo`. -/
def classifyData (s : DState) : List JVal → Except Unit DState
  | [] => .ok s
  | e :: rest =>
    match stepData s e with
    | .error u => .error u
    | .ok s' => classifyData s' rest

/-- Log-free twin of `walkNodes`. -/
def walkNodesData (s : DState) (o : List (String × JVal)) :
    List JVal → DState × Bool
  | [] => (s, false)
  | n :: rest =>
    match lookupNode s.platform_nodes (pyStr n) with
    | none => walkNodesData s o rest
    | some pt =>
      match lookupField o "type" with
      | none => (s, true)
      | some tv =>
        let s1 := { s with types := s.types ++ [tv] }
        match lookupField o "id" with
        | none => (s1, true)
        | some iv =>
          let s2 := { s1 with ids := s1.ids ++ [iv], points := s1.points ++ [pt] }
          match lookupField o "name" with
          | none => (s2, true)
          | some nv => ({ s2 with names := s2.names ++ [nv] }, false)

/-- Log-free twin of `resolvePlatform`. -/
def resolvePlatformData (s : DState) (p : JVal) : DState × Bool :=
  match p with
  | .jobj o =>
    match lookupField o "nodes" with
    | none => (s, true)
    | some v =>
      match iterElems v with
      | none => (s, true)
      | some ns => walkNodesData s o ns
  | _ => (s, true)

/-- Log-free twin of `resolveLoop`. -/
def resolveLoopData (s : DState) : List JVal → DState × Bool
  | [] => (s, false)
  | p :: rest =>
    match resolvePlatformData s p with
    | (s', true) => (s', true)
    | (s', false) => resolveLoopData s' rest

/-- Log-free twin of the whole engine: the produced table with every
diagnostic call removed. -/
def osm_2_gdfData (elems : List JVal) : Except Unit DState :=
  match classifyData initD elems with
  | .error u => .error u
  | .ok s => .ok (resolveLoopData s s.platforms).1

/-- A node element carrying the given tags dict (id 1, lat 1.0, lon 2.0). -/
def taggedNode (tags : List (String × JVal)) : JVal :=
  .jobj [("type", .jstr "node"), ("id", .jint 1), ("lat", .jfloat 1),
         ("lon", .jfloat 2), ("tags", .jobj tags)]

/-- A node tagged only `highway=bus_stop`. -/
def hwNode : JVal := taggedNode [("highway", .jstr "bus_stop")]

/-- A node tagged only `public_transport=platform`. -/
def ptNode : JVal := taggedNode [("public_transport", .jstr "platform")]

/-- A node with an empty tags dict: neither recognized tag is present. -/
def emptyTagsNode : JVal := taggedNode []

/-- A node whose only tag is an empty `name` (fails the standalone schema
through `non_empty_string`, and carries a tags mapping). -/
def emptyNameNode : JVal := taggedNode [("name", .jstr "")]

/-- An element of a kind this engine does not understand. -/
def relationElem : JVal := .jobj [("type", .jstr "relation"), ("id", .jint 5)]

/-- A malformed pending-platform entry: its `nodes` key is missing, so the
resolution walk faults on `platform["nodes"]`. -/
def badPlatform : JVal :=
  .jobj [("type", .jstr "way"), ("id", .jstr "9"), ("name", .jstr "n/a")]

/-- A well-formed pending platform whose single reference resolves. -/
def goodPlatform : JVal :=
  .jobj [("type", .jstr "way"), ("id", .jstr "2"), ("name", .jstr "n/a"),
         ("nodes", .jarr [.jint 1])]

/-- A resolver state holding the malformed platform before the good one. -/
def pendingState : DState :=
  { initD with platforms := [badPlatform, goodPlatform],
               platform_nodes := [("1", (10, 20))] }

/-- A resolver state whose mapping knows nodes `8` and `9` but not `7`. -/
def resolveState : DState :=
  { initD with platform_nodes := [("8", (1, 2)), ("9", (3, 4))] }

/-- Fields of a platform referencing nodes `[7, 8, 9]`. -/
def threeRefFields : List (String × JVal) :=
  [("type", .jstr "way"), ("id", .jstr "100"), ("name", .jstr "P"),
   ("nodes", .jarr [.jint 7, .jint 8, .jint 9])]

/-- Fields of a platform referencing only the unknown node `7`. -/
def oneRefFields : List (String × JVal) :=
  [("type", .jstr "way"), ("id", .jstr "101"), ("name", .jstr "Q"),
   ("nodes", .jarr [.jint 7])]

/-- The state after the bare-member branch inserted one node: only the
mapping changes. -/
def insertBare (s : DState) (i : Int) (la lo : ℚ) : DState :=
  { s with platform_nodes := insertNode s.platform_nodes (toString i) (lo, la) }

/-- The state produced by classifying the duplicated stop node twice. -/
def dupState : DState :=
  ⟨[.jstr "node", .jstr "node"], [.jstr "1", .jstr "1"], [(2, 1), (2, 1)],
   [.jstr "n/a", .jstr "n/a"], [], []⟩

/-- The state produced by classifying two bare nodes with the same id `5`:
the mapping keeps only the later point. -/
def lastWinsState : DState := ⟨[], [], [], [], [], [("5", (4, 3))]⟩

/-! ### Basic lemmas -/

theorem lookupNode_insertNode_self (m : List (String × (ℚ × ℚ))) (k : String) (v : ℚ × ℚ) :
    lookupNode (insertNode m k v) k = some v := by
  induction m with
  | nil => simp [insertNode, lookupNode]
  | cons kv rest ih =>
    by_cases h : kv.1 = k
    · simp [insertNode, lookupNode, h]
    · simp [insertNode, lookupNode, h, ih]

theorem lookupNode_insertNode_other (m : List (String × (ℚ × ℚ))) (k k' : String) (v : ℚ × ℚ)
    (h : k ≠ k') : lookupNode (insertNode m k v) k' = lookupNode m k' := by
  induction m with
  | nil => simp [insertNode, lookupNode, h]
  | cons kv rest ih =>
    by_cases h' : kv.1 = k
    · simp [insertNode, lookupNode, h', h]
    · simp [insertNode, lookupNode, h', ih]

theorem isPyFloat_getD {x : Option JVal} (h : isPyFloat (x.getD .jnull) = true) :
    ∃ q, x = some (.jfloat q) := by
  cases x with
  | none => simp [isPyFloat] at h
  | some v => cases v <;> simp_all [isPyFloat]

theorem isPyInt_getD {x : Option JVal} (h : isPyInt (x.getD .jnull) = true) :
    ∃ v, x = some v := by
  cases x with
  | none => simp [isPyInt] at h
  | some v => exact ⟨v, rfl⟩

/-- Field shapes guaranteed by a successful standalone-stop validation. -/
theorem stop_validator_fields {o : List (String × JVal)}
    (h : osm_node_stop_validator (.jobj o) = true) :
    lookupField o "type" = some (.jstr "node") ∧
    (∃ iv, lookupField o "id" = some iv) ∧
    (∃ la, lookupField o "lat" = some (.jfloat la)) ∧
    (∃ lo, lookupField o "lon" = some (.jfloat lo)) ∧
    (∃ t, lookupField o "tags" = some (.jobj t) ∧ tagsOk t = true) := by
  unfold osm_node_stop_validator at h
  simp only [Bool.and_eq_true] at h
  obtain ⟨⟨⟨⟨h1, h2⟩, h3⟩, h4⟩, h5⟩ := h
  refine ⟨?_, isPyInt_getD h2, isPyFloat_getD h3, isPyFloat_getD h4, ?_⟩
  · split at h1
    · assumption
    · simp at h1
  · split at h5
    · rename_i t ht
      exact ⟨t, ht, h5⟩
    · simp at h5

/-- Field shapes guaranteed by a successful platform-way validation. -/
theorem way_validator_fields {o : List (String × JVal)}
    (h : osm_way_stop_validator (.jobj o) = true) :
    lookupField o "type" = some (.jstr "way") ∧
    (∃ iv, lookupField o "id" = some iv) ∧
    (∃ ns, lookupField o "nodes" = some (.jarr ns) ∧ ns.all isPyInt = true ∧ 2 ≤ ns.length) ∧
    (∃ t, lookupField o "tags" = some (.jobj t)) := by
  unfold osm_way_stop_validator at h
  simp only [Bool.and_eq_true] at h
  obtain ⟨⟨⟨h1, h2⟩, h3⟩, h4⟩ := h
  refine ⟨?_, isPyInt_getD h2, ?_, ?_⟩
  · split at h1
    · assumption
    · simp at h1
  · split at h3
    · rename_i ns hns
      simp only [Bool.and_eq_true, decide_eq_true_eq] at h3
      exact ⟨ns, hns, h3.1, h3.2⟩
    · simp at h3
  · split at h4
    · rename_i t ht
      exact ⟨t, ht⟩
    · simp at h4

/-- Field shapes guaranteed by a successful bare-member validation. -/
theorem bare_validator_fields {o : List (String × JVal)}
    (h : osm_node_part_of_way_validator (.jobj o) = true) :
    lookupField o "type" = some (.jstr "node") ∧
    (∃ iv, lookupField o "id" = some iv) ∧
    (∃ la, lookupField o "lat" = some (.jfloat la)) ∧
    (∃ lo, lookupField o "lon" = some (.jfloat lo)) := by
  unfold osm_node_part_of_way_validator at h
  simp only [Bool.and_eq_true] at h
  obtain ⟨⟨⟨⟨h1, h2⟩, h3⟩, h4⟩, _⟩ := h
  refine ⟨?_, isPyInt_getD h2, isPyFloat_getD h3, isPyFloat_getD h4⟩
  split at h1
  · assumption
  · simp at h1

theorem getName_ok {o : List (String × JVal)} {t : List (String × JVal)}
    (hG : lookupField o "tags" = some (.jobj t)) :
    getName o = .ok ((lookupField t "name").getD (.jstr "n/a")) := by
  unfold getName
  rw [hG]

/-! ### Classification-step lemmas, one per branch of the loop body -/

/-- A successfully validated standalone stop node appends exactly one direct
record (and touches nothing else). -/
theorem stepD_stop (s : DState) {o : List (String × JVal)}
    (h : osm_node_stop_validator (.jobj o) = true) :
    ∃ iv la lo t,
      lookupField o "id" = some iv ∧
      lookupField o "lat" = some (.jfloat la) ∧
      lookupField o "lon" = some (.jfloat lo) ∧
      lookupField o "tags" = some (.jobj t) ∧
      stepD s (.jobj o) =
        .ok ({ s with
                 types := s.types ++ [.jstr "node"],
                 ids := s.ids ++ [.jstr (pyStr iv)],
                 points := s.points ++ [(lo, la)],
                 names := s.names ++ [(lookupField t "name").getD (.jstr "n/a")] }, []) ∧
      directRecord (.jobj o) =
        some (.jstr "node", .jstr (pyStr iv), (lo, la),
              (lookupField t "name").getD (.jstr "n/a")) := by
  obtain ⟨hT, ⟨iv, hI⟩, ⟨la, hLa⟩, ⟨lo, hLo⟩, ⟨t, hG, _⟩⟩ := stop_validator_fields h
  refine ⟨iv, la, lo, t, hI, hLa, hLo, hG, ?_, ?_⟩
  · simp only [stepD]
    rw [hT]
    simp [h, hI, hLa, hLo, getName_ok hG]
  · simp only [directRecord]
    rw [hT]
    simp [h, hI, hLa, hLo, getName_ok hG]

/-- A node failing the standalone schema but passing the bare-member schema
inserts its point into `platform_nodes` under its stringified id. -/
theorem stepD_bare (s : DState) {o : List (String × JVal)}
    (hstop : osm_node_stop_validator (.jobj o) = false)
    (hbare : osm_node_part_of_way_validator (.jobj o) = true) :
    ∃ iv la lo,
      lookupField o "id" = some iv ∧
      lookupField o "lat" = some (.jfloat la) ∧
      lookupField o "lon" = some (.jfloat lo) ∧
      stepD s (.jobj o) =
        .ok ({ s with
                 platform_nodes := insertNode s.platform_nodes (pyStr iv) (lo, la) }, []) := by
  obtain ⟨hT, ⟨iv, hI⟩, ⟨la, hLa⟩, ⟨lo, hLo⟩⟩ := bare_validator_fields hbare
  refine ⟨iv, la, lo, hI, hLa, hLo, ?_⟩
  simp only [stepD]
  rw [hT]
  simp [hstop, hbare, hI, hLa, hLo]

/-- A node element failing both node schemas is discarded with exactly the
bare-member validation failure logged (the standalone attempt is quiet). -/
theorem stepD_node_discard (s : DState) {o : List (String × JVal)}
    (hT : lookupField o "type" = some (.jstr "node"))
    (hstop : osm_node_stop_validator (.jobj o) = false)
    (hbare : osm_node_part_of_way_validator (.jobj o) = false) :
    stepD s (.jobj o) = .ok (s, [.validationFailed .way_node (.jobj o)]) := by
  simp only [stepD]
  rw [hT]
  simp [hstop, hbare]

/-- A successfully validated platform way defers exactly one pending
platform. -/
theorem stepD_way (s : DState) {o : List (String × JVal)}
    (h : osm_way_stop_validator (.jobj o) = true) :
    ∃ iv nodesv t,
      lookupField o "id" = some iv ∧
      lookupField o "nodes" = some nodesv ∧
      lookupField o "tags" = some (.jobj t) ∧
      stepD s (.jobj o) =
        .ok ({ s with
                 platforms := s.platforms ++
                   [.jobj [("type", .jstr "way"), ("id", .jstr (pyStr iv)),
                           ("name", (lookupField t "name").getD (.jstr "n/a")),
                           ("nodes", nodesv)]] }, []) ∧
      wayRecord (.jobj o) =
        some (.jobj [("type", .jstr "way"), ("id", .jstr (pyStr iv)),
                     ("name", (lookupField t "name").getD (.jstr "n/a")),
                     ("nodes", nodesv)]) := by
  obtain ⟨hT, ⟨iv, hI⟩, ⟨ns, hN, _, _⟩, ⟨t, hG⟩⟩ := way_validator_fields h
  refine ⟨iv, .jarr ns, t, hI, hN, hG, ?_, ?_⟩
  · simp only [stepD]
    rw [hT]
    simp [h, hI, hN, getName_ok hG]
  · simp only [wayRecord]
    rw [hT]
    simp [h, hI, hN, getName_ok hG]

/-- A way element failing the platform schema is discarded with the
validation failure logged. -/
theorem stepD_way_discard (s : DState) {o : List (String × JVal)}
    (hT : lookupField o "type" = some (.jstr "way"))
    (hway : osm_way_stop_validator (.jobj o) = false) :
    stepD s (.jobj o) = .ok (s, [.validationFailed .way (.jobj o)]) := by
  simp only [stepD]
  rw [hT]
  simp [hway]

/-- An element whose `type` value is neither `"node"` nor `"way"` falls
through both branches: no record, no side-table entry, and no log line. -/
theorem stepD_other (s : DState) {o : List (String × JVal)} {tv : JVal}
    (hT : lookupField o "type" = some tv)
    (h1 : tv ≠ .jstr "node") (h2 : tv ≠ .jstr "way") :
    stepD s (.jobj o) = .ok (s, []) := by
  cases tv with
  | jstr sv =>
    have h1' : sv ≠ "node" := fun h => h1 (by rw [h])
    have h2' : sv ≠ "way" := fun h => h2 (by rw [h])
    simp only [stepD]
    rw [hT]
    simp [h1', h2']
  | jnull => simp only [stepD]; rw [hT]
  | jbool b => simp only [stepD]; rw [hT]
  | jint n => simp only [stepD]; rw [hT]
  | jfloat q => simp only [stepD]; rw [hT]
  | jarr xs => simp only [stepD]; rw [hT]
  | jobj fs => simp only [stepD]; rw [hT]

/-- `elem["type"]` raises `KeyError` on a missing key, aborting the run. -/
theorem stepD_err_missing_type (s : DState) {o : List (String × JVal)}
    (hT : lookupField o "type" = none) : stepD s (.jobj o) = .error () := by
  simp only [stepD]
  rw [hT]

/-- Trichotomy on the branch taken by the kind dispatch. -/
theorem kind_trichotomy (tv : JVal) :
    tv = .jstr "node" ∨ tv = .jstr "way" ∨ (tv ≠ .jstr "node" ∧ tv ≠ .jstr "way") := by
  by_cases h1 : tv = .jstr "node"
  · exact Or.inl h1
  · by_cases h2 : tv = .jstr "way"
    · exact Or.inr (Or.inl h2)
    · exact Or.inr (Or.inr ⟨h1, h2⟩)

/-- A classification step only ever appends to the four column lists and the
pending-platform list: exactly the direct record and pending platform
computed by `directRecord`/`wayRecord`. -/
theorem stepD_ok_decomp {s : DState} {e : JVal} {s' : DState} {l : List LogEvent}
    (h : stepD s e = .ok (s', l)) :
    s'.types = s.types ++ dRecT e ∧
    s'.ids = s.ids ++ dRecI e ∧
    s'.points = s.points ++ dRecP e ∧
    s'.names = s.names ++ dRecN e ∧
    s'.platforms = s.platforms ++ wRecL e := by
  cases e with
  | jobj o =>
    cases hT : lookupField o "type" with
    | none => rw [stepD_err_missing_type s hT] at h; exact absurd h (by simp)
    | some tv =>
      rcases kind_trichotomy tv with h1 | h1 | ⟨h1, h2⟩
      · subst h1
        cases hstop : osm_node_stop_validator (.jobj o) with
        | true =>
          obtain ⟨iv, la, lo, t, hI, hLa, hLo, hG, hstep, hrec⟩ := stepD_stop s hstop
          rw [hstep] at h
          injection h with h
          injection h with h hl
          subst h
          simp [dRecT, dRecI, dRecP, dRecN, wRecL, hrec, wayRecord, hT]
        | false =>
          cases hbare : osm_node_part_of_way_validator (.jobj o) with
          | true =>
            obtain ⟨iv, la, lo, hI, hLa, hLo, hstep⟩ := stepD_bare s hstop hbare
            rw [hstep] at h
            injection h with h
            injection h with h hl
            subst h
            simp [dRecT, dRecI, dRecP, dRecN, wRecL, directRecord, wayRecord, hT, hstop]
          | false =>
            rw [stepD_node_discard s hT hstop hbare] at h
            injection h with h
            injection h with h hl
            subst h
            simp [dRecT, dRecI, dRecP, dRecN, wRecL, directRecord, wayRecord, hT, hstop]
      · subst h1
        cases hway : osm_way_stop_validator (.jobj o) with
        | true =>
          obtain ⟨iv, nodesv, t, hI, hN, hG, hstep, hrec⟩ := stepD_way s hway
          rw [hstep] at h
          injection h with h
          injection h with h hl
          subst h
          simp [dRecT, dRecI, dRecP, dRecN, wRecL, hrec, directRecord, hT]
        | false =>
          rw [stepD_way_discard s hT hway] at h
          injection h with h
          injection h with h hl
          subst h
          simp [dRecT, dRecI, dRecP, dRecN, wRecL, directRecord, wayRecord, hT, hway]
      · rw [stepD_other s hT h1 h2] at h
        injection h with h
        injection h with h hl
        subst h
        cases tv with
        | jstr sv =>
          have h1' : sv ≠ "node" := fun hh => h1 (by rw [hh])
          have h2' : sv ≠ "way" := fun hh => h2 (by rw [hh])
          simp [dRecT, dRecI, dRecP, dRecN, wRecL, directRecord, wayRecord, hT, h1', h2']
        | jnull => simp [dRecT, dRecI, dRecP, dRecN, wRecL, directRecord, wayRecord, hT]
        | jbool b => simp [dRecT, dRecI, dRecP, dRecN, wRecL, directRecord, wayRecord, hT]
        | jint n => simp [dRecT, dRecI, dRecP, dRecN, wRecL, directRecord, wayRecord, hT]
        | jfloat q => simp [dRecT, dRecI, dRecP, dRecN, wRecL, directRecord, wayRecord, hT]
        | jarr xs => simp [dRecT, dRecI, dRecP, dRecN, wRecL, directRecord, wayRecord, hT]
        | jobj fs => simp [dRecT, dRecI, dRecP, dRecN, wRecL, directRecord, wayRecord, hT]
  | jnull => exact absurd h (by simp [stepD])
  | jbool b => exact absurd h (by simp [stepD])
  | jint n => exact absurd h (by simp [stepD])
  | jfloat q => exact absurd h (by simp [stepD])
  | jstr sv => exact absurd h (by simp [stepD])
  | jarr xs => exact absurd h (by simp [stepD])

/-- As long as `elem["type"]` is present, the loop body catches every
validation failure and returns normally. -/
theorem stepD_total (s : DState) {o : List (String × JVal)} {tv : JVal}
    (hT : lookupField o "type" = some tv) :
    ∃ r, stepD s (.jobj o) = .ok r := by
  rcases kind_trichotomy tv with h1 | h1 | ⟨h1, h2⟩
  · subst h1
    cases hstop : osm_node_stop_validator (.jobj o) with
    | true =>
      obtain ⟨_, _, _, _, _, _, _, _, hstep, _⟩ := stepD_stop s hstop
      exact ⟨_, hstep⟩
    | false =>
      cases hbare : osm_node_part_of_way_validator (.jobj o) with
      | true =>
        obtain ⟨_, _, _, _, _, _, hstep⟩ := stepD_bare s hstop hbare
        exact ⟨_, hstep⟩
      | false => exact ⟨_, stepD_node_discard s hT hstop hbare⟩
  · subst h1
    cases hway : osm_way_stop_validator (.jobj o) with
    | true =>
      obtain ⟨_, _, _, _, _, _, hstep, _⟩ := stepD_way s hway
      exact ⟨_, hstep⟩
    | false => exact ⟨_, stepD_way_discard s hT hway⟩
  · exact ⟨_, stepD_other s hT h1 h2⟩

/-- Splitting the classification loop over a concatenation of inputs. -/
theorem classifyGo_append (s : DState) (xs ys : List JVal) :
    classifyGo s (xs ++ ys) =
      match classifyGo s xs with
      | .error u => .error u
      | .ok (s', l) =>
        match classifyGo s' ys with
        | .error u => .error u
        | .ok (s'', l') => .ok (s'', l ++ l') := by
  induction xs generalizing s with
  | nil =>
    simp only [List.nil_append, classifyGo]
    cases h : classifyGo s ys with
    | error u => rfl
    | ok r => obtain ⟨s'', l'⟩ := r; simp
  | cons e rest ih =>
    simp only [List.cons_append, classifyGo]
    cases hs : stepD s e with
    | error u => rfl
    | ok r =>
      obtain ⟨s1, l1⟩ := r
      dsimp only
      rw [show rest.append ys = rest ++ ys from rfl, ih s1]
      cases h1 : classifyGo s1 rest with
      | error u => rfl
      | ok r2 =>
        obtain ⟨s2, l2⟩ := r2
        dsimp only
        cases h2 : classifyGo s2 ys with
        | error u => rfl
        | ok r3 => obtain ⟨s3, l3⟩ := r3; simp

/-- The classification pass appends, in input order, exactly the direct
records and pending platforms of the individual elements. -/
theorem classifyGo_decomp {s : DState} {elems : List JVal} {s' : DState} {l : List LogEvent}
    (h : classifyGo s elems = .ok (s', l)) :
    s'.types = s.types ++ elems.flatMap dRecT ∧
    s'.ids = s.ids ++ elems.flatMap dRecI ∧
    s'.points = s.points ++ elems.flatMap dRecP ∧
    s'.names = s.names ++ elems.flatMap dRecN ∧
    s'.platforms = s.platforms ++ elems.flatMap wRecL := by
  induction elems generalizing s l with
  | nil =>
    simp only [classifyGo] at h
    injection h with h
    injection h with h hl
    subst h
    simp
  | cons e rest ih =>
    simp only [classifyGo] at h
    cases hs : stepD s e with
    | error u => rw [hs] at h; exact absurd h (by simp)
    | ok r =>
      obtain ⟨s1, l1⟩ := r
      rw [hs] at h
      dsimp only at h
      cases hr : classifyGo s1 rest with
      | error u => rw [hr] at h; exact absurd h (by simp)
      | ok r2 =>
        obtain ⟨s2, l2⟩ := r2
        rw [hr] at h
        dsimp only at h
        injection h with h
        injection h with h hl
        subst h
        obtain ⟨d1, d2, d3, d4, d5⟩ := stepD_ok_decomp hs
        obtain ⟨e1, e2, e3, e4, e5⟩ := ih hr
        refine ⟨?_, ?_, ?_, ?_, ?_⟩ <;>
          simp [e1, e2, e3, e4, e5, d1, d2, d3, d4, d5, List.flatMap_cons,
                List.append_assoc]

/-- The reference walk of one platform, characterized by the first
reference present in the mapping: on a hit the four fields of the platform
are appended together with the hit node's point, after one missing-node log
per reference tried before the hit; when no reference is present, the state
is unchanged and a resolution failure is logged. -/
theorem walkNodes_first_match (s : DState) (p : JVal) {o : List (String × JVal)}
    (ns : List JVal) {tv iv nv : JVal}
    (hTy : lookupField o "type" = some tv)
    (hId : lookupField o "id" = some iv)
    (hNm : lookupField o "name" = some nv) :
    (∀ hit, ns.find? (fun n => (lookupNode s.platform_nodes (pyStr n)).isSome) = some hit →
      ∃ pt, lookupNode s.platform_nodes (pyStr hit) = some pt ∧
        walkNodes s p o ns =
          ({ s with types := s.types ++ [tv], ids := s.ids ++ [iv],
                    points := s.points ++ [pt], names := s.names ++ [nv] },
           (ns.takeWhile (fun n => (lookupNode s.platform_nodes (pyStr n)).isNone)).map
             .platformNodeNotFound,
           false)) ∧
    (ns.find? (fun n => (lookupNode s.platform_nodes (pyStr n)).isSome) = none →
      walkNodes s p o ns =
        (s, ns.map .platformNodeNotFound ++ [.platformUnresolved p], false)) := by
  induction ns with
  | nil =>
    constructor
    · intro hit hfind
      simp [List.find?] at hfind
    · intro _
      simp [walkNodes]
  | cons n rest ih =>
    cases hL : lookupNode s.platform_nodes (pyStr n) with
    | some pt =>
      constructor
      · intro hit hfind
        rw [List.find?_cons_of_pos _ (by simp [hL])] at hfind
        injection hfind with hfind
        subst hfind
        refine ⟨pt, hL, ?_⟩
        have htake : (n :: rest).takeWhile
            (fun n => (lookupNode s.platform_nodes (pyStr n)).isNone) = [] := by
          rw [List.takeWhile_cons_of_neg]
          simp [hL]
        rw [htake]
        simp only [walkNodes, hL, hTy, hId, hNm, List.map_nil]
      · intro hfind
        rw [List.find?_cons_of_pos _ (by simp [hL])] at hfind
        exact absurd hfind (by simp)
    | none =>
      have hpred : ((lookupNode s.platform_nodes (pyStr n)).isSome : Bool) = false := by
        simp [hL]
      constructor
      · intro hit hfind
        rw [List.find?_cons_of_neg _ (by simp [hL])] at hfind
        obtain ⟨pt, hpt, hwalk⟩ := ih.1 hit hfind
        refine ⟨pt, hpt, ?_⟩
        have htake : (n :: rest).takeWhile
            (fun n => (lookupNode s.platform_nodes (pyStr n)).isNone) =
            n :: rest.takeWhile (fun n => (lookupNode s.platform_nodes (pyStr n)).isNone) := by
          rw [List.takeWhile_cons_of_pos]
          simp [hL]
        rw [htake]
        simp only [walkNodes, hL, hwalk, List.map_cons]
      · intro hfind
        rw [List.find?_cons_of_neg _ (by simp [hL])] at hfind
        have hwalk := ih.2 hfind
        simp only [walkNodes, hL, hwalk, List.map_cons, List.cons_append]

/-- Fetching a list-valued `platform["nodes"]` reduces resolution of the
platform to the reference walk. -/
theorem resolvePlatform_jarr {s : DState} {o : List (String × JVal)} {ns : List JVal}
    (hN : lookupField o "nodes" = some (.jarr ns)) :
    resolvePlatform s (.jobj o) = walkNodes s (.jobj o) o ns := by
  simp only [resolvePlatform]
  rw [hN]
  simp [iterElems]

/-- Splitting the platform loop over a concatenation: a fault inside the
first part discards the second part entirely. -/
theorem resolveLoop_append (s : DState) (ps qs : List JVal) :
    resolveLoop s (ps ++ qs) =
      match resolveLoop s ps with
      | (s1, l1, true) => (s1, l1, true)
      | (s1, l1, false) =>
        let r := resolveLoop s1 qs
        (r.1, l1 ++ r.2.1, r.2.2) := by
  induction ps generalizing s with
  | nil => simp [resolveLoop]
  | cons p rest ih =>
    simp only [List.cons_append, resolveLoop]
    cases hp : resolvePlatform s p with
    | mk s1 r1 =>
      obtain ⟨l1, b1⟩ := r1
      cases b1 with
      | true => rfl
      | false =>
        dsimp only
        rw [show rest.append qs = rest ++ qs from rfl, ih s1]
        cases hr : resolveLoop s1 rest with
        | mk s2 r2 =>
          obtain ⟨l2, b2⟩ := r2
          cases b2 with
          | true => rfl
          | false => simp

/-- The reference walk never touches the pending-platform list or the
way-member-node mapping. -/
theorem walkNodes_side (s : DState) (p : JVal) (o : List (String × JVal)) (ns : List JVal) :
    (walkNodes s p o ns).1.platforms = s.platforms ∧
    (walkNodes s p o ns).1.platform_nodes = s.platform_nodes := by
  induction ns with
  | nil => simp [walkNodes]
  | cons n rest ih =>
    cases hL : lookupNode s.platform_nodes (pyStr n) with
    | none => simpa [walkNodes, hL] using ih
    | some pt =>
      cases hTy : lookupField o "type" with
      | none => simp [walkNodes, hL, hTy]
      | some tv =>
        cases hId : lookupField o "id" with
        | none => simp [walkNodes, hL, hTy, hId]
        | some iv =>
          cases hNm : lookupField o "name" with
          | none => simp [walkNodes, hL, hTy, hId, hNm]
          | some nv => simp [walkNodes, hL, hTy, hId, hNm]

/-- The rows appended by the reference walk do not depend on the rows
already accumulated: walking from `s` equals walking from `s` with cleared
rows, prefixed by the old rows. -/
theorem walkNodes_shift (s : DState) (p : JVal) (o : List (String × JVal)) (ns : List JVal) :
    walkNodes s p o ns =
      ({ (walkNodes (rowsCleared s) p o ns).1 with
           types := s.types ++ (walkNodes (rowsCleared s) p o ns).1.types,
           ids := s.ids ++ (walkNodes (rowsCleared s) p o ns).1.ids,
           points := s.points ++ (walkNodes (rowsCleared s) p o ns).1.points,
           names := s.names ++ (walkNodes (rowsCleared s) p o ns).1.names },
       (walkNodes (rowsCleared s) p o ns).2.1,
       (walkNodes (rowsCleared s) p o ns).2.2) := by
  induction ns with
  | nil => simp [walkNodes, rowsCleared]
  | cons n rest ih =>
    have hpn : (rowsCleared s).platform_nodes = s.platform_nodes := rfl
    cases hL : lookupNode s.platform_nodes (pyStr n) with
    | none =>
      simp only [walkNodes, hL, hpn]
      rw [ih]
    | some pt =>
      cases hTy : lookupField o "type" with
      | none => simp [walkNodes, hL, hTy, hpn, rowsCleared]
      | some tv =>
        cases hId : lookupField o "id" with
        | none => simp [walkNodes, hL, hTy, hId, hpn, rowsCleared]
        | some iv =>
          cases hNm : lookupField o "name" with
          | none => simp [walkNodes, hL, hTy, hId, hNm, hpn, rowsCleared]
          | some nv => simp [walkNodes, hL, hTy, hId, hNm, hpn, rowsCleared]

/-- Resolution of one platform never touches the pending-platform list or
the way-member-node mapping. -/
theorem resolvePlatform_side (s : DState) (p : JVal) :
    (resolvePlatform s p).1.platforms = s.platforms ∧
    (resolvePlatform s p).1.platform_nodes = s.platform_nodes := by
  cases p with
  | jobj o =>
    cases hN : lookupField o "nodes" with
    | none => simp [resolvePlatform, hN]
    | some v =>
      cases hI : iterElems v with
      | none => simp [resolvePlatform, hN, hI]
      | some ns =>
        simp only [resolvePlatform, hN, hI]
        exact walkNodes_side s (.jobj o) o ns
  | jnull => simp [resolvePlatform]
  | jbool b => simp [resolvePlatform]
  | jint n => simp [resolvePlatform]
  | jfloat q => simp [resolvePlatform]
  | jstr sv => simp [resolvePlatform]
  | jarr xs => simp [resolvePlatform]

/-- Accumulator shift for the resolution of a single platform. -/
theorem resolvePlatform_shift (s : DState) (p : JVal) :
    resolvePlatform s p =
      ({ (resolvePlatform (rowsCleared s) p).1 with
           types := s.types ++ (resolvePlatform (rowsCleared s) p).1.types,
           ids := s.ids ++ (resolvePlatform (rowsCleared s) p).1.ids,
           points := s.points ++ (resolvePlatform (rowsCleared s) p).1.points,
           names := s.names ++ (resolvePlatform (rowsCleared s) p).1.names },
       (resolvePlatform (rowsCleared s) p).2.1,
       (resolvePlatform (rowsCleared s) p).2.2) := by
  cases p with
  | jobj o =>
    cases hN : lookupField o "nodes" with
    | none => simp [resolvePlatform, hN, rowsCleared]
    | some v =>
      cases hI : iterElems v with
      | none => simp [resolvePlatform, hN, hI, rowsCleared]
      | some ns =>
        simp only [resolvePlatform, hN, hI]
        exact walkNodes_shift s (.jobj o) o ns
  | jnull => simp [resolvePlatform, rowsCleared]
  | jbool b => simp [resolvePlatform, rowsCleared]
  | jint n => simp [resolvePlatform, rowsCleared]
  | jfloat q => simp [resolvePlatform, rowsCleared]
  | jstr sv => simp [resolvePlatform, rowsCleared]
  | jarr xs => simp [resolvePlatform, rowsCleared]

/-- Accumulator shift for the whole platform loop: the rows it appends are
those of the same loop run with cleared rows, and do not depend on the rows
already present. -/
theorem resolveLoop_shift (s : DState) (ps : List JVal) :
    resolveLoop s ps =
      ({ (resolveLoop (rowsCleared s) ps).1 with
           types := s.types ++ (resolveLoop (rowsCleared s) ps).1.types,
           ids := s.ids ++ (resolveLoop (rowsCleared s) ps).1.ids,
           points := s.points ++ (resolveLoop (rowsCleared s) ps).1.points,
           names := s.names ++ (resolveLoop (rowsCleared s) ps).1.names },
       (resolveLoop (rowsCleared s) ps).2.1,
       (resolveLoop (rowsCleared s) ps).2.2) := by
  induction ps generalizing s with
  | nil => simp [resolveLoop, rowsCleared]
  | cons p rest ih =>
    have hshift := resolvePlatform_shift s p
    cases hc : resolvePlatform (rowsCleared s) p with
    | mk c1 c2 =>
      obtain ⟨cl, cb⟩ := c2
      rw [hc] at hshift
      cases cb with
      | true =>
        simp only [resolveLoop, hshift, hc]
      | false =>
        simp only [resolveLoop, hshift, hc]
        have hcc : rowsCleared ({ c1 with
            types := s.types ++ c1.types, ids := s.ids ++ c1.ids,
            points := s.points ++ c1.points, names := s.names ++ c1.names }) =
            rowsCleared c1 := rfl
        rw [ih, hcc, ih c1]
        simp [List.append_assoc]

/-- Classifying a bare way-member node (exactly the four required fields)
takes the member branch: it fails the standalone schema (`tags` is a
required key there), passes the bare schema, and writes its point into the
mapping under its stringified id, logging nothing. -/
theorem stepD_bareElem (s : DState) (i : Int) (la lo : ℚ) :
    stepD s (bareElem i la lo) = .ok (insertBare s i la lo, []) ∧
    osm_node_stop_validator (bareElem i la lo) = false ∧
    osm_node_part_of_way_validator (bareElem i la lo) = true :=
  ⟨rfl, rfl, rfl⟩

/-- A classification step can only change the mapping at the key named by
`insertsKey`. -/
theorem stepD_preserves_key {s : DState} {e : JVal} {s' : DState} {l : List LogEvent}
    {k : String} (h : stepD s e = .ok (s', l)) (hk : insertsKey e k = false) :
    lookupNode s'.platform_nodes k = lookupNode s.platform_nodes k := by
  cases e with
  | jobj o =>
    cases hT : lookupField o "type" with
    | none => rw [stepD_err_missing_type s hT] at h; exact absurd h (by simp)
    | some tv =>
      rcases kind_trichotomy tv with h1 | h1 | ⟨h1, h2⟩
      · subst h1
        cases hstop : osm_node_stop_validator (.jobj o) with
        | true =>
          obtain ⟨iv, la, lo, t, hI, hLa, hLo, hG, hstep, _⟩ := stepD_stop s hstop
          rw [hstep] at h
          injection h with h
          injection h with h hl
          subst h
          rfl
        | false =>
          cases hbare : osm_node_part_of_way_validator (.jobj o) with
          | true =>
            obtain ⟨iv, la, lo, hI, hLa, hLo, hstep⟩ := stepD_bare s hstop hbare
            rw [hstep] at h
            injection h with h
            injection h with h hl
            subst h
            simp only [insertsKey, hT, hstop, hbare, hI, Bool.not_false, Bool.true_and,
                       Bool.and_true, Bool.and_self] at hk
            have hne : pyStr iv ≠ k := by simpa using hk
            exact lookupNode_insertNode_other _ _ _ _ hne
          | false =>
            rw [stepD_node_discard s hT hstop hbare] at h
            injection h with h
            injection h with h hl
            subst h
            rfl
      · subst h1
        cases hway : osm_way_stop_validator (.jobj o) with
        | true =>
          obtain ⟨iv, nodesv, t, hI, hN, hG, hstep, _⟩ := stepD_way s hway
          rw [hstep] at h
          injection h with h
          injection h with h hl
          subst h
          rfl
        | false =>
          rw [stepD_way_discard s hT hway] at h
          injection h with h
          injection h with h hl
          subst h
          rfl
      · rw [stepD_other s hT h1 h2] at h
        injection h with h
        injection h with h hl
        subst h
        rfl
  | jnull => exact absurd h (by simp [stepD])
  | jbool b => exact absurd h (by simp [stepD])
  | jint n => exact absurd h (by simp [stepD])
  | jfloat q => exact absurd h (by simp [stepD])
  | jstr sv => exact absurd h (by simp [stepD])
  | jarr xs => exact absurd h (by simp [stepD])

/-- The classification pass preserves a mapping key that none of its
elements inserts. -/
theorem classifyGo_preserves_key {s : DState} {zs : List JVal} {s' : DState}
    {l : List LogEvent} {k : String} (h : classifyGo s zs = .ok (s', l))
    (hk : ∀ e ∈ zs, insertsKey e k = false) :
    lookupNode s'.platform_nodes k = lookupNode s.platform_nodes k := by
  induction zs generalizing s l with
  | nil =>
    simp only [classifyGo] at h
    injection h with h
    injection h with h hl
    subst h
    rfl
  | cons e rest ih =>
    simp only [classifyGo] at h
    cases hs : stepD s e with
    | error u => rw [hs] at h; exact absurd h (by simp)
    | ok r =>
      obtain ⟨s1, l1⟩ := r
      rw [hs] at h
      dsimp only at h
      cases hr : classifyGo s1 rest with
      | error u => rw [hr] at h; exact absurd h (by simp)
      | ok r2 =>
        obtain ⟨s2, l2⟩ := r2
        rw [hr] at h
        dsimp only at h
        injection h with h
        injection h with h hl
        subst h
        rw [ih hr (fun e he => hk e (List.mem_cons_of_mem _ he))]
        exact stepD_preserves_key hs (hk e (List.mem_cons_self e rest))

/-- Dropping the emitted log lines from a classification step yields the
log-free twin: the diagnostics have no influence on the data outcome. -/
theorem stepData_eq (s : DState) (e : JVal) :
    (stepD s e).map Prod.fst = stepData s e := by
  cases e with
  | jobj o =>
    cases hT : lookupField o "type" with
    | none =>
      rw [stepD_err_missing_type s hT]
      simp only [stepData]
      rw [hT]
      rfl
    | some tv =>
      rcases kind_trichotomy tv with h1 | h1 | ⟨h1, h2⟩
      · subst h1
        cases hstop : osm_node_stop_validator (.jobj o) with
        | true =>
          obtain ⟨iv, la, lo, t, hI, hLa, hLo, hG, hstep, _⟩ := stepD_stop s hstop
          rw [hstep]
          simp only [stepData]
          rw [hT]
          simp [Except.map, hstop, hI, hLa, hLo, getName_ok hG]
        | false =>
          cases hbare : osm_node_part_of_way_validator (.jobj o) with
          | true =>
            obtain ⟨iv, la, lo, hI, hLa, hLo, hstep⟩ := stepD_bare s hstop hbare
            rw [hstep]
            simp only [stepData]
            rw [hT]
            simp [Except.map, hstop, hbare, hI, hLa, hLo]
          | false =>
            rw [stepD_node_discard s hT hstop hbare]
            simp only [stepData]
            rw [hT]
            simp [Except.map, hstop, hbare]
      · subst h1
        cases hway : osm_way_stop_validator (.jobj o) with
        | true =>
          obtain ⟨iv, nodesv, t, hI, hN, hG, hstep, _⟩ := stepD_way s hway
          rw [hstep]
          simp only [stepData]
          rw [hT]
          simp [Except.map, hway, hI, hN, getName_ok hG]
        | false =>
          rw [stepD_way_discard s hT hway]
          simp only [stepData]
          rw [hT]
          simp [Except.map, hway]
      · rw [stepD_other s hT h1 h2]
        cases tv with
        | jstr sv =>
          have h1' : sv ≠ "node" := fun hh => h1 (by rw [hh])
          have h2' : sv ≠ "way" := fun hh => h2 (by rw [hh])
          simp only [stepData]
          rw [hT]
          simp [Except.map, h1', h2']
        | jnull => simp only [stepData]; rw [hT]; rfl
        | jbool b => simp only [stepData]; rw [hT]; rfl
        | jint n => simp only [stepData]; rw [hT]; rfl
        | jfloat q => simp only [stepData]; rw [hT]; rfl
        | jarr xs => simp only [stepData]; rw [hT]; rfl
        | jobj fs => simp only [stepData]; rw [hT]; rfl
  | jnull => rfl
  | jbool b => rfl
  | jint n => rfl
  | jfloat q => rfl
  | jstr sv => rfl
  | jarr xs => rfl

/-- Dropping the log lines from the classification pass yields its log-free
twin. -/
theorem classifyData_eq (s : DState) (elems : List JVal) :
    (classifyGo s elems).map Prod.fst = classifyData s elems := by
  induction elems generalizing s with
  | nil => rfl
  | cons e rest ih =>
    simp only [classifyGo, classifyData]
    cases hs : stepD s e with
    | error u =>
      have := stepData_eq s e
      rw [hs] at this
      rw [← this]
      rfl
    | ok r =>
      obtain ⟨s1, l1⟩ := r
      have := stepData_eq s e
      rw [hs] at this
      rw [← this]
      dsimp only [Except.map]
      cases hr : classifyGo s1 rest with
      | error u =>
        have h2 := ih s1
        rw [hr] at h2
        rw [← h2]
        rfl
      | ok r2 =>
        obtain ⟨s2, l2⟩ := r2
        have h2 := ih s1
        rw [hr] at h2
        rw [← h2]
        rfl

/-- Dropping the log lines from the reference walk yields its log-free
twin. -/
theorem walkNodesData_eq (s : DState) (p : JVal) (o : List (String × JVal)) (ns : List JVal) :
    ((walkNodes s p o ns).1, (walkNodes s p o ns).2.2) = walkNodesData s o ns := by
  induction ns with
  | nil => rfl
  | cons n rest ih =>
    simp only [walkNodes, walkNodesData]
    cases hL : lookupNode s.platform_nodes (pyStr n) with
    | none => simpa using ih
    | some pt =>
      cases hTy : lookupField o "type" with
      | none => rfl
      | some tv =>
        cases hId : lookupField o "id" with
        | none => rfl
        | some iv =>
          cases hNm : lookupField o "name" with
          | none => rfl
          | some nv => rfl

/-- Dropping the log lines from single-platform resolution yields its
log-free twin. -/
theorem resolvePlatformData_eq (s : DState) (p : JVal) :
    ((resolvePlatform s p).1, (resolvePlatform s p).2.2) = resolvePlatformData s p := by
  cases p with
  | jobj o =>
    simp only [resolvePlatform, resolvePlatformData]
    cases hN : lookupField o "nodes" with
    | none => rfl
    | some v =>
      dsimp only
      cases hI : iterElems v with
      | none => rfl
      | some ns => exact walkNodesData_eq s (.jobj o) o ns
  | jnull => rfl
  | jbool b => rfl
  | jint n => rfl
  | jfloat q => rfl
  | jstr sv => rfl
  | jarr xs => rfl

/-- Dropping the log lines from the platform loop yields its log-free
twin. -/
theorem resolveLoopData_eq (s : DState) (ps : List JVal) :
    ((resolveLoop s ps).1, (resolveLoop s ps).2.2) = resolveLoopData s ps := by
  induction ps generalizing s with
  | nil => rfl
  | cons p rest ih =>
    simp only [resolveLoop, resolveLoopData]
    have hp := resolvePlatformData_eq s p
    cases hc : resolvePlatform s p with
    | mk s1 r1 =>
      obtain ⟨l1, b1⟩ := r1
      rw [hc] at hp
      rw [← hp]
      cases b1 with
      | true => rfl
      | false =>
        dsimp only
        have hr := ih s1
        cases hl : resolveLoop s1 rest with
        | mk s2 r2 =>
          obtain ⟨l2, b2⟩ := r2
          rw [hl] at hr
          rw [← hr]

/-- The produced table is exactly that of the diagnostics-free engine: log
lines never alter control flow or the output. -/
theorem osm_2_gdfData_eq (elems : List JVal) :
    (osm_2_gdf elems).map Prod.fst = osm_2_gdfData elems := by
  simp only [osm_2_gdf, osm_2_gdfData, resolveAll]
  have hc := classifyData_eq initD elems
  cases h : classifyGo initD elems with
  | error u =>
    rw [h] at hc
    rw [← hc]
    rfl
  | ok r =>
    obtain ⟨s, l⟩ := r
    rw [h] at hc
    rw [← hc]
    dsimp only [Except.map]
    have hr := resolveLoopData_eq s s.platforms
    cases hl : resolveLoop s s.platforms with
    | mk s1 r1 =>
      obtain ⟨l1, b1⟩ := r1
      rw [hl] at hr
      rw [← hr]
      cases b1 with
      | true => rfl
      | false => rfl

/-- Splitting the log-free classification pass over a concatenation. -/
theorem classifyData_append (s : DState) (xs ys : List JVal) :
    classifyData s (xs ++ ys) =
      match classifyData s xs with
      | .error u => .error u
      | .ok s' => classifyData s' ys := by
  induction xs generalizing s with
  | nil => rfl
  | cons e rest ih =>
    simp only [List.cons_append, classifyData]
    cases hs : stepData s e with
    | error u => rfl
    | ok s1 => exact ih s1

/-- A successful dict lookup exhibits a member entry with that key. -/
theorem lookupField_mem {o : List (String × JVal)} {k : String} {v : JVal}
    (h : lookupField o k = some v) : (k, v) ∈ o := by
  induction o with
  | nil => simp [lookupField] at h
  | cons kv rest ih =>
    obtain ⟨k', v'⟩ := kv
    by_cases hk : k' = k
    · subst hk
      simp [lookupField] at h
      simp [h]
    · simp [lookupField, hk] at h
      exact List.mem_cons_of_mem _ (ih h)

/-- The standalone-stop schema and the bare-member schema are mutually
exclusive on this code: the former requires the `tags` key, the latter
rejects any element carrying it.  The spec's tie-break scenario (an element
passing both) therefore cannot occur. -/
theorem stop_and_bare_never_both (e : JVal)
    (h : osm_node_stop_validator e = true) :
    osm_node_part_of_way_validator e = false := by
  cases e with
  | jobj o =>
    obtain ⟨_, _, _, _, t, hG, _⟩ := stop_validator_fields h
    have hmem : ("tags", JVal.jobj t) ∈ o := lookupField_mem hG
    simp only [osm_node_part_of_way_validator]
    have : o.all (fun kv => kv.1 = "type" || kv.1 = "id" || kv.1 = "lat" || kv.1 = "lon")
        = false := by
      rw [List.all_eq_false]
      exact ⟨("tags", .jobj t), hmem, by simp⟩
    simp [this]
  | jnull => simp [osm_node_stop_validator] at h
  | jbool b => simp [osm_node_stop_validator] at h
  | jint n => simp [osm_node_stop_validator] at h
  | jfloat q => simp [osm_node_stop_validator] at h
  | jstr sv => simp [osm_node_stop_validator] at h
  | jarr xs => simp [osm_node_stop_validator] at h

/-- The state component of the resolution phase is that of the loop: the
surrounding handler only appends a log line. -/
theorem resolveAll_fst (s : DState) :
    (resolveAll s).1 = (resolveLoop s s.platforms).1 := by
  simp only [resolveAll]
  cases h : resolveLoop s s.platforms with
  | mk s1 r1 =>
    obtain ⟨l1, b1⟩ := r1
    cases b1 <;> rfl

/-! ### Claim theorems -/

/-- C1 counterexample: a node element with kind `node`, integer id, float
lat/lon and a tags mapping that fails the StandaloneStopNode schema (empty
`name`) does NOT pass the bare-member validation — the bare schema rejects
the extra `tags` key — and the step discards it with a log instead of
inserting it into the way-member-node mapping (the state, mapping included,
is unchanged). -/
theorem c1_counterexample :
    osm_node_stop_validator emptyNameNode = false ∧
    osm_node_part_of_way_validator emptyNameNode = false ∧
    stepD initD emptyNameNode =
      .ok (initD, [.validationFailed .way_node emptyNameNode]) :=
  ⟨rfl, rfl, rfl⟩

/-- C1 (amended): a node element that fails the StandaloneStopNode schema
passes the BareWayMemberNode validation and is inserted into the mapping
keyed by its string id only when it carries exactly the fields
`type`/`id`/`lat`/`lon`; any extra field — a tags mapping included — makes
the bare validation fail, so the element is discarded instead. -/
theorem c1_bare_member_exact_fields :
    (∀ (s : DState) (i : Int) (la lo : ℚ),
      osm_node_stop_validator (bareElem i la lo) = false ∧
      osm_node_part_of_way_validator (bareElem i la lo) = true ∧
      stepD s (bareElem i la lo) =
        .ok ({ s with
                 platform_nodes := insertNode s.platform_nodes (toString i) (lo, la) }, [])) ∧
    (∀ (o : List (String × JVal)) (k : String) (v : JVal),
      (k, v) ∈ o → k ≠ "type" → k ≠ "id" → k ≠ "lat" → k ≠ "lon" →
      osm_node_part_of_way_validator (.jobj o) = false) := by
  constructor
  · intro s i la lo
    obtain ⟨h1, h2, h3⟩ := stepD_bareElem s i la lo
    exact ⟨h2, h3, h1⟩
  · intro o k v hmem h1 h2 h3 h4
    simp only [osm_node_part_of_way_validator]
    have hall : o.all
        (fun kv => kv.1 = "type" || kv.1 = "id" || kv.1 = "lat" || kv.1 = "lon") = false := by
      rw [List.all_eq_false]
      exact ⟨(k, v), hmem, by simp [h1, h2, h3, h4]⟩
    simp [hall]

/-- C1 witness: a four-field bare node is inserted; the same node with an
empty tags mapping added fails the bare validation. -/
theorem c1_witness :
    (osm_node_stop_validator (bareElem 5 1 2) = false ∧
     osm_node_part_of_way_validator (bareElem 5 1 2) = true ∧
     stepD initD (bareElem 5 1 2) =
       .ok ({ initD with
                platform_nodes := insertNode initD.platform_nodes (toString (5 : Int)) (2, 1) }, [])) ∧
    osm_node_part_of_way_validator
      (.jobj [("type", .jstr "node"), ("id", .jint 5), ("lat", .jfloat 1),
              ("lon", .jfloat 2), ("tags", .jobj [])]) = false :=
  ⟨c1_bare_member_exact_fields.1 initD 5 1 2,
   c1_bare_member_exact_fields.2 _ "tags" (.jobj []) (by simp)
     (by decide) (by decide) (by decide) (by decide)⟩

/-- C2 counterexample: with the malformed platform (missing `nodes`) ahead
of a resolvable platform in the pending list, the loop-level handler stops
everything: the produced state has no rows at all, although the second
platform on its own resolves to a record.  The fault does not merely skip
the faulting platform. -/
theorem c2_counterexample :
    resolveAll pendingState = (pendingState, [.resolverFault]) ∧
    resolvePlatform pendingState goodPlatform =
      ({ pendingState with types := [.jstr "way"], ids := [.jstr "2"],
                           points := [(10, 20)], names := [.jstr "n/a"] }, [], false) :=
  ⟨rfl, rfl⟩

/-- C2 (amended): a fault while resolving one platform is caught by the
single handler around the whole loop: the fault is logged once and that
platform and every platform after it are abandoned; only rows appended
before the fault are kept. -/
theorem c2_fault_aborts_rest :
    ∀ (s : DState) (ps : List JVal) (p : JVal) (qs : List JVal) (s1 s2 : DState)
      (l1 l2 : List LogEvent),
      resolveLoop s ps = (s1, l1, false) →
      resolvePlatform s1 p = (s2, l2, true) →
      resolveLoop s (ps ++ p :: qs) = (s2, l1 ++ l2, true) ∧
      (s.platforms = ps ++ p :: qs →
        resolveAll s = (s2, (l1 ++ l2) ++ [.resolverFault])) := by
  intro s ps p qs s1 s2 l1 l2 h1 h2
  have hloop : resolveLoop s (ps ++ p :: qs) = (s2, l1 ++ l2, true) := by
    rw [resolveLoop_append, h1]
    simp only [resolveLoop, h2]
  refine ⟨hloop, fun hp => ?_⟩
  simp only [resolveAll, hp, hloop]

/-- C2 witness: the loop over `[badPlatform, goodPlatform]` faults at the
first platform and never resolves the second. -/
theorem c2_witness :
    resolveLoop pendingState ([] ++ badPlatform :: [goodPlatform]) =
      (pendingState, [] ++ [], true) ∧
    (pendingState.platforms = [] ++ badPlatform :: [goodPlatform] →
      resolveAll pendingState = (pendingState, ([] ++ []) ++ [.resolverFault])) :=
  c2_fault_aborts_rest pendingState [] badPlatform [goodPlatform]
    pendingState pendingState [] [] rfl rfl

/-- C3: resolution of a platform with a list of node references binds the
platform to the coordinate of the first reference present in the
way-member-node mapping, logging each earlier miss; when no reference is
present, the platform contributes no row and only logs a resolution
failure. -/
theorem c3_first_match :
    ∀ (s : DState) (o : List (String × JVal)) (ns : List JVal) (tv iv nv : JVal),
      lookupField o "nodes" = some (.jarr ns) →
      lookupField o "type" = some tv →
      lookupField o "id" = some iv →
      lookupField o "name" = some nv →
      (∀ hit, ns.find? (fun n => (lookupNode s.platform_nodes (pyStr n)).isSome) = some hit →
        ∃ pt, lookupNode s.platform_nodes (pyStr hit) = some pt ∧
          resolvePlatform s (.jobj o) =
            ({ s with types := s.types ++ [tv], ids := s.ids ++ [iv],
                      points := s.points ++ [pt], names := s.names ++ [nv] },
             (ns.takeWhile (fun n => (lookupNode s.platform_nodes (pyStr n)).isNone)).map
               .platformNodeNotFound,
             false)) ∧
      (ns.find? (fun n => (lookupNode s.platform_nodes (pyStr n)).isSome) = none →
        resolvePlatform s (.jobj o) =
          (s, ns.map .platformNodeNotFound ++ [.platformUnresolved (.jobj o)], false)) := by
  intro s o ns tv iv nv hN hTy hId hNm
  rw [resolvePlatform_jarr hN]
  exact walkNodes_first_match s (.jobj o) ns hTy hId hNm

/-- C3 witness: the platform `[7, 8, 9]` with only `8` and `9` in the
mapping is drawn at node `8`'s point `(1, 2)`; the platform `[7]` yields no
row and a resolution-failure log. -/
theorem c3_witness :
    resolvePlatform resolveState (.jobj threeRefFields) =
      ({ resolveState with types := [.jstr "way"], ids := [.jstr "100"],
                           points := [(1, 2)], names := [.jstr "P"] },
       [.platformNodeNotFound (.jint 7)], false) ∧
    resolvePlatform resolveState (.jobj oneRefFields) =
      (resolveState,
       [.platformNodeNotFound (.jint 7), .platformUnresolved (.jobj oneRefFields)],
       false) := by
  constructor
  · obtain ⟨pt, h1, h2⟩ :=
      (c3_first_match resolveState threeRefFields [.jint 7, .jint 8, .jint 9]
        (.jstr "way") (.jstr "100") (.jstr "P") rfl rfl rfl rfl).1 (.jint 8) rfl
    have hpt : some pt = some ((1 : ℚ), (2 : ℚ)) := h1.symm.trans rfl
    injection hpt with hpt
    subst hpt
    exact h2
  · exact (c3_first_match resolveState oneRefFields [.jint 7]
      (.jstr "way") (.jstr "101") (.jstr "Q") rfl rfl rfl rfl).2 rfl

/-- C4 counterexample: an element of kind `relation` (neither node nor way)
is discarded with NO log line at all — the state and the emitted log list
are unchanged — contradicting the claim that every discard, and that of an
unknown kind in particular, produces a diagnostic. -/
theorem c4_counterexample :
    stepD initD relationElem = .ok (initD, []) := rfl

/-- C4 (amended): a node or way element that fails its validators is
discarded with a logged validation failure, but an element whose kind is
neither `node` nor `way` is discarded silently, with no log line; the
diagnostics are output-only and never alter the produced table. -/
theorem c4_discard_logging :
    (∀ (s : DState) (o : List (String × JVal)) (tv : JVal),
      lookupField o "type" = some tv → tv ≠ .jstr "node" → tv ≠ .jstr "way" →
      stepD s (.jobj o) = .ok (s, [])) ∧
    (∀ (s : DState) (o : List (String × JVal)),
      lookupField o "type" = some (.jstr "node") →
      osm_node_stop_validator (.jobj o) = false →
      osm_node_part_of_way_validator (.jobj o) = false →
      stepD s (.jobj o) = .ok (s, [.validationFailed .way_node (.jobj o)])) ∧
    (∀ (s : DState) (o : List (String × JVal)),
      lookupField o "type" = some (.jstr "way") →
      osm_way_stop_validator (.jobj o) = false →
      stepD s (.jobj o) = .ok (s, [.validationFailed .way (.jobj o)])) ∧
    (∀ elems, (osm_2_gdf elems).map Prod.fst = osm_2_gdfData elems) :=
  ⟨fun s _ _ hT h1 h2 => stepD_other s hT h1 h2,
   fun s _ hT h1 h2 => stepD_node_discard s hT h1 h2,
   fun s _ hT h1 => stepD_way_discard s hT h1,
   osm_2_gdfData_eq⟩

/-- C4 witness: concrete instances of all four parts of the amended
claim. -/
theorem c4_witness :
    stepD initD relationElem = .ok (initD, []) ∧
    stepD initD (.jobj [("type", .jstr "node"), ("id", .jint 1)]) =
      .ok (initD, [.validationFailed .way_node
        (.jobj [("type", .jstr "node"), ("id", .jint 1)])]) ∧
    stepD initD (.jobj [("type", .jstr "way"), ("id", .jint 1)]) =
      .ok (initD, [.validationFailed .way
        (.jobj [("type", .jstr "way"), ("id", .jint 1)])]) ∧
    (osm_2_gdf [hwNode]).map Prod.fst = osm_2_gdfData [hwNode] :=
  ⟨c4_discard_logging.1 initD _ (.jstr "relation") rfl (by simp) (by simp),
   c4_discard_logging.2.1 initD _ rfl rfl rfl,
   c4_discard_logging.2.2.1 initD _ rfl rfl,
   c4_discard_logging.2.2.2 [hwNode]⟩

/-- C5: the standalone-stop schema accepts a node tagged only
`highway=bus_stop` and a node tagged only `public_transport=platform`, as
claimed — but it ALSO accepts a node carrying neither tag (empty tags
mapping): the voluptuous sub-schemas leave the discriminating keys
optional, so the "at least one of the expected values" check (the code's
own comment) never fires for absent keys.  The third conjunct evaluates the
code at the failing input. -/
theorem c5_tag_or_check :
    osm_node_stop_validator hwNode = true ∧
    osm_node_stop_validator ptNode = true ∧
    osm_node_stop_validator emptyTagsNode = true :=
  ⟨rfl, rfl, rfl⟩

/-- C6: a node that satisfies the StandaloneStopNode schema — in particular
any node satisfying both it and the BareWayMemberNode schema — always takes
the standalone branch: one direct record with stop type `node` is emitted
and the way-member-node mapping is left untouched. -/
theorem c6_standalone_priority :
    ∀ (s : DState) (o : List (String × JVal)),
      osm_node_stop_validator (.jobj o) = true →
      ∃ i pt nm,
        stepD s (.jobj o) =
          .ok ({ s with types := s.types ++ [.jstr "node"], ids := s.ids ++ [i],
                        points := s.points ++ [pt], names := s.names ++ [nm] }, []) ∧
        ∀ s' l, stepD s (.jobj o) = .ok (s', l) →
          s'.platform_nodes = s.platform_nodes := by
  intro s o h
  obtain ⟨iv, la, lo, t, hI, hLa, hLo, hG, hstep, _⟩ := stepD_stop s h
  refine ⟨.jstr (pyStr iv), (lo, la), (lookupField t "name").getD (.jstr "n/a"), hstep, ?_⟩
  intro s' l hsl
  rw [hstep] at hsl
  injection hsl with h'
  injection h' with h' hl
  rw [← h']

/-- C6 witness: the `public_transport=platform` node emits a direct record
and leaves the mapping untouched. -/
theorem c6_witness :
    ∃ i pt nm,
      stepD initD ptNode =
        .ok ({ initD with types := initD.types ++ [.jstr "node"],
                          ids := initD.ids ++ [i],
                          points := initD.points ++ [pt],
                          names := initD.names ++ [nm] }, []) ∧
      ∀ s' l, stepD initD ptNode = .ok (s', l) →
        s'.platform_nodes = initD.platform_nodes :=
  c6_standalone_priority initD
    [("type", .jstr "node"), ("id", .jint 1), ("lat", .jfloat 1), ("lon", .jfloat 2),
     ("tags", .jobj [("public_transport", .jstr "platform")])] rfl

/-- C8: a node element with no `lat` field is discarded without any
exception — the step returns normally, logging the failed validation — and
the produced table for an input containing it is exactly the table for the
same input without it: all other elements are still classified and still
appear. -/
theorem c8_missing_lat :
    ∀ (s : DState) (o : List (String × JVal)) (xs ys : List JVal),
      lookupField o "type" = some (.jstr "node") →
      lookupField o "lat" = none →
      stepD s (.jobj o) = .ok (s, [.validationFailed .way_node (.jobj o)]) ∧
      (osm_2_gdf (xs ++ .jobj o :: ys)).map Prod.fst =
        (osm_2_gdf (xs ++ ys)).map Prod.fst := by
  intro s o xs ys hT hLat
  have hstop : osm_node_stop_validator (.jobj o) = false := by
    simp [osm_node_stop_validator, hLat, isPyFloat]
  have hbare : osm_node_part_of_way_validator (.jobj o) = false := by
    simp [osm_node_part_of_way_validator, hLat, isPyFloat]
  refine ⟨stepD_node_discard s hT hstop hbare, ?_⟩
  rw [osm_2_gdfData_eq, osm_2_gdfData_eq]
  simp only [osm_2_gdfData]
  rw [classifyData_append, classifyData_append]
  cases hxs : classifyData initD xs with
  | error u => rfl
  | ok s1 =>
    dsimp only
    have hstep : stepData s1 (.jobj o) = .ok s1 := by
      have h := stepData_eq s1 (.jobj o)
      rw [stepD_node_discard s1 hT hstop hbare] at h
      exact h.symm.trans rfl
    simp only [classifyData, hstep]

/-- C8 witness: dropping a lat-less node from between two valid stop nodes
does not change the produced table. -/
theorem c8_witness :
    stepD initD (.jobj [("type", .jstr "node"), ("id", .jint 1)]) =
      .ok (initD, [.validationFailed .way_node
        (.jobj [("type", .jstr "node"), ("id", .jint 1)])]) ∧
    (osm_2_gdf ([hwNode] ++ .jobj [("type", .jstr "node"), ("id", .jint 1)] :: [ptNode])).map
        Prod.fst =
      (osm_2_gdf ([hwNode] ++ [ptNode])).map Prod.fst :=
  c8_missing_lat initD [("type", .jstr "node"), ("id", .jint 1)] [hwNode] [ptNode] rfl rfl

/-- C9: an element record without the `type` key makes the classification
loop raise (`KeyError`), so the whole run faults and no table is produced,
wherever the record occurs; conversely any element that does carry a `type`
key is handled without raising, so the discard-and-continue behavior holds
exactly under that precondition. -/
theorem c9_missing_type_fatal :
    ∀ (xs ys : List JVal) (o o2 : List (String × JVal)) (v : JVal) (s : DState),
      lookupField o "type" = none →
      lookupField o2 "type" = some v →
      osm_2_gdf (xs ++ .jobj o :: ys) = .error () ∧
      ∃ r, stepD s (.jobj o2) = .ok r := by
  intro xs ys o o2 v s h1 h2
  refine ⟨?_, stepD_total s h2⟩
  simp only [osm_2_gdf]
  rw [classifyGo_append]
  cases hxs : classifyGo initD xs with
  | error u => cases u; rfl
  | ok r =>
    obtain ⟨s1, l1⟩ := r
    dsimp only
    simp only [classifyGo, stepD_err_missing_type s1 h1]

/-- C9 witness: a run whose only element lacks `type` errors; a step on an
element with a `type` key returns. -/
theorem c9_witness :
    osm_2_gdf ([] ++ .jobj [("id", .jint 1)] :: []) = .error () ∧
    ∃ r, stepD initD (.jobj [("type", .jstr "x")]) = .ok r :=
  c9_missing_type_fatal [] [] [("id", .jint 1)] [("type", .jstr "x")] (.jstr "x")
    initD rfl rfl

/-- C7: the final table is exactly the concatenation of the direct records
emitted by the classifier in input order (`flatMap` of the per-element
record) with the rows appended by the resolver over the pending platforms —
themselves collected in input (encounter) order — with no filtering or
deduplication: an element with a direct record occurring twice in the input
contributes its stop id (at least) twice to the output ids column. -/
theorem c7_assembler_concat :
    ∀ (elems : List JVal) (s : DState) (l : List LogEvent),
      classifyGo initD elems = .ok (s, l) →
      osm_2_gdf elems = .ok ((resolveAll s).1, l ++ (resolveAll s).2) ∧
      (resolveAll s).1.types =
        elems.flatMap dRecT ++ (resolveLoop (rowsCleared s) s.platforms).1.types ∧
      (resolveAll s).1.ids =
        elems.flatMap dRecI ++ (resolveLoop (rowsCleared s) s.platforms).1.ids ∧
      (resolveAll s).1.points =
        elems.flatMap dRecP ++ (resolveLoop (rowsCleared s) s.platforms).1.points ∧
      (resolveAll s).1.names =
        elems.flatMap dRecN ++ (resolveLoop (rowsCleared s) s.platforms).1.names ∧
      s.platforms = elems.flatMap wRecL ∧
      (∀ (xs ys zs : List JVal) (e t i : JVal) (pt : ℚ × ℚ) (nm : JVal),
        elems = xs ++ e :: ys ++ e :: zs →
        directRecord e = some (t, i, pt, nm) →
        2 ≤ (((resolveAll s).1.ids).map pyStr).count (pyStr i)) := by
  intro elems s l H
  obtain ⟨d1, d2, d3, d4, d5⟩ := classifyGo_decomp H
  have hfst : (resolveAll s).1 = (resolveLoop s s.platforms).1 := resolveAll_fst s
  have hshift := resolveLoop_shift s s.platforms
  have hids : (resolveAll s).1.ids =
      elems.flatMap dRecI ++ (resolveLoop (rowsCleared s) s.platforms).1.ids := by
    rw [hfst, hshift]
    simp only [d2]
    simp [initD]
  refine ⟨?_, ?_, hids, ?_, ?_, ?_, ?_⟩
  · simp only [osm_2_gdf]
    rw [H]
  · rw [hfst, hshift]
    simp only [d1]
    simp [initD]
  · rw [hfst, hshift]
    simp only [d3]
    simp [initD]
  · rw [hfst, hshift]
    simp only [d4]
    simp [initD]
  · rw [d5]
    simp [initD]
  · intro xs ys zs e t i pt nm helems hrec
    have hdi : dRecI e = [i] := by simp [dRecI, hrec]
    rw [hids, helems]
    simp only [List.flatMap_append, List.flatMap_cons, hdi, List.map_append,
               List.map_cons, List.map_nil, List.count_append, List.count_cons_self,
               List.count_nil]
    omega

/-- C7 witness: the duplicated `public_transport=platform` node (id 1)
produces a table with its id twice. -/
theorem c7_witness :
    osm_2_gdf [ptNode, ptNode] =
      .ok ((resolveAll dupState).1, [] ++ (resolveAll dupState).2) ∧
    2 ≤ (((resolveAll dupState).1.ids).map pyStr).count (pyStr (.jstr "1")) := by
  have h := c7_assembler_concat [ptNode, ptNode] dupState [] rfl
  exact ⟨h.1, h.2.2.2.2.2.2 [] [] [] ptNode (.jstr "node") (.jstr "1") (2, 1)
    (.jstr "n/a") rfl rfl⟩

/-- C10: when two bare way-member nodes with the same id occur in the
input, the mapping keeps the point of the LAST occurrence (in input order),
provided no later element re-inserts the same key; a platform whose first
resolvable reference is that id is therefore bound to the last node's
coordinate. -/
theorem c10_last_duplicate_wins :
    ∀ (xs ys zs : List JVal) (i : Int) (la1 lo1 la2 lo2 : ℚ) (s : DState)
      (l : List LogEvent),
      classifyGo initD (xs ++ bareElem i la1 lo1 :: ys ++ bareElem i la2 lo2 :: zs) =
        .ok (s, l) →
      (∀ e ∈ zs, insertsKey e (toString i) = false) →
      lookupNode s.platform_nodes (toString i) = some (lo2, la2) ∧
      ∀ tv iv nv rest,
        resolvePlatform s
          (.jobj [("type", tv), ("id", iv), ("name", nv),
                  ("nodes", .jarr (.jint i :: rest))]) =
          ({ s with types := s.types ++ [tv], ids := s.ids ++ [iv],
                    points := s.points ++ [(lo2, la2)], names := s.names ++ [nv] },
           [], false) := by
  intro xs ys zs i la1 lo1 la2 lo2 s l H hk
  rw [classifyGo_append initD (xs ++ bareElem i la1 lo1 :: ys)
        (bareElem i la2 lo2 :: zs),
      classifyGo_append initD xs (bareElem i la1 lo1 :: ys)] at H
  have hkey : lookupNode s.platform_nodes (toString i) = some (lo2, la2) := by
    cases hxs : classifyGo initD xs with
    | error u => rw [hxs] at H; exact absurd H (by simp)
    | ok r =>
      obtain ⟨sx, lx⟩ := r
      rw [hxs] at H
      dsimp only at H
      simp only [classifyGo] at H
      rw [(stepD_bareElem sx i la1 lo1).1] at H
      dsimp only at H
      cases hys : classifyGo (insertBare sx i la1 lo1) ys with
      | error u => rw [hys] at H; exact absurd H (by simp)
      | ok r2 =>
        obtain ⟨sy, ly⟩ := r2
        rw [hys] at H
        dsimp only at H
        rw [(stepD_bareElem sy i la2 lo2).1] at H
        dsimp only at H
        cases hzs : classifyGo (insertBare sy i la2 lo2) zs with
        | error u => rw [hzs] at H; exact absurd H (by simp)
        | ok r3 =>
          obtain ⟨sz, lz⟩ := r3
          rw [hzs] at H
          dsimp only at H
          injection H with H
          injection H with H hl
          subst H
          rw [classifyGo_preserves_key hzs hk]
          exact lookupNode_insertNode_self _ _ _
  refine ⟨hkey, ?_⟩
  intro tv iv nv rest
  have hN : lookupField [("type", tv), ("id", iv), ("name", nv),
      ("nodes", .jarr (.jint i :: rest))] "nodes" = some (.jarr (.jint i :: rest)) := rfl
  rw [resolvePlatform_jarr hN]
  simp only [walkNodes, pyStr, hkey, lookupField]
  simp

/-- C10 witness: two bare nodes with id `5`; a platform first referencing
`5` is drawn at the second node's point `(4, 3)`. -/
theorem c10_witness :
    lookupNode lastWinsState.platform_nodes (toString (5 : Int)) = some (4, 3) ∧
    ∀ tv iv nv rest,
      resolvePlatform lastWinsState
        (.jobj [("type", tv), ("id", iv), ("name", nv),
                ("nodes", .jarr (.jint 5 :: rest))]) =
        ({ lastWinsState with
             types := lastWinsState.types ++ [tv], ids := lastWinsState.ids ++ [iv],
             points := lastWinsState.points ++ [(4, 3)],
             names := lastWinsState.names ++ [nv] },
         [], false) :=
  c10_last_duplicate_wins [] [] [] 5 1 2 3 4 lastWinsState [] rfl
    (fun e he => absurd he (List.not_mem_nil e))

end GtfsToOsm
